import Mathlib

/-!
Verification of the SinGAN training-orchestration logic
(`mmagic/models/editors/singan/singan.py`).

Tensors are shallowly embedded: a score vector or a flattened image is a
`List ℚ`; a (channel, row, col) image is a nested list; a batch of images is a
list of images.  `torch.Tensor.mean` over a flat list is `sum / length`, and
`torch.nn.functional.mse_loss` (default reduction `mean`) is the mean of the
elementwise squared differences.  The numeric square root produced by
`torch.sqrt` / `Tensor.norm` has no exact rational counterpart, so it is
threaded through the definitions as an explicit function argument `sq`;
theorems that depend on it carry the facts they need about `sq` at the points
where the code applies it.  Randomness (`torch.rand`, `torch.randn`) is
modelled by passing the drawn values in as explicit arguments.
-/

namespace SinGANModel

/-- `Tensor.mean()` of a flat tensor. -/
def mean (l : List ℚ) : ℚ := l.sum / l.length

/-- `F.mse_loss(a, b)` with the default `mean` reduction: the mean of the
elementwise squared differences. -/
def mse (a b : List ℚ) : ℚ := mean ((a.zip b).map fun p => (p.1 - p.2) ^ 2)

/-- Character-list test: does the first list occur at the head of the second? -/
def beginsWithCL : List Char → List Char → Bool
  | [], _ => true
  | _ :: _, [] => false
  | p :: ps, c :: cs => p == c && beginsWithCL ps cs

/-- Character-list substring test (occurrence anywhere). -/
def hasSubCL (p : List Char) : List Char → Bool
  | [] => beginsWithCL p []
  | c :: cs => beginsWithCL p (c :: cs) || hasSubCL p cs

/-- mmengine's `BaseModel.parse_losses` keeps the entries of the log dict
whose key contains the substring `loss`. -/
def keyHasLoss (k : String) : Bool := hasSubCL "loss".toList k.toList

/-- mmengine's `BaseModel.parse_losses`: the total loss is the sum of the
dict entries whose key contains `loss` (each entry is already a scalar here,
batch size being 1 in SinGAN). -/
def parse_losses (d : List (String × ℚ)) : ℚ :=
  ((d.filter fun p => keyHasLoss p.1).map Prod.snd).sum

/-- `SinGAN.gen_loss` (singan.py lines 323-346): the losses dict is
`loss_gen = -disc_pred_fake.mean()` and
`loss_mse = 10 * F.mse_loss(recon_imgs, reals[curr_stage])`, then
`parse_losses` sums the two.  `d` is the discriminator score vector on fresh
fake images, `r` the reconstruction, `t = reals[curr_stage]` the target. -/
def gen_loss (d r t : List ℚ) : ℚ :=
  parse_losses [("loss_gen", -mean d), ("loss_mse", 10 * mse r t)]

/-! Images for the gradient-penalty computation keep their (channel, row,
col) structure, because `gradients.norm(2, dim=1)` reduces over the channel
dimension only. -/

/-- A single image: channels, each a matrix of rows and columns. -/
abbrev Image := List (List (List ℚ))

/-- Elementwise combination of two matrices. -/
def matMap2 (f : ℚ → ℚ → ℚ) (a b : List (List ℚ)) : List (List ℚ) :=
  List.zipWith (List.zipWith f) a b

/-- Elementwise square of a matrix. -/
def matSq (m : List (List ℚ)) : List (List ℚ) := m.map (List.map fun x => x ^ 2)

/-- Per-pixel sum over the channel dimension of the squared entries:
the square of `gradients.norm(2, dim=1)` before the square root. -/
def channelSqSum (g : Image) : List (List ℚ) :=
  match g with
  | [] => []
  | c :: cs => (cs.map matSq).foldl (matMap2 (· + ·)) (matSq c)

/-- The per-pixel penalty values of one sample:
`(gradients.norm(2, dim=1) - 1) ** 2` flattened over the spatial grid.
`sq` stands for the square root inside `Tensor.norm`. -/
def pixel_penalties (sq : ℚ → ℚ) (g : Image) : List ℚ :=
  ((channelSqSum g).map (List.map fun v => (sq v - 1) ^ 2)).flatten

/-- The gradient penalty exactly as singan.py line 396 computes it:
`((gradients.norm(2, dim=1) - 1)**2).mean()`, i.e. the mean over batch AND
spatial positions of the squared deviation of the per-pixel channel norm. -/
def gp_code (sq : ℚ → ℚ) (gs : List Image) : ℚ :=
  mean ((gs.map (pixel_penalties sq)).flatten)

/-- Sum of the squares of every entry of an image (all dimensions). -/
def imgSqSum (g : Image) : ℚ := ((g.flatten.flatten).map fun x => x ^ 2).sum

/-- The gradient penalty as the SPEC words it (claim C5): per sample the full
gradient 2-norm, `(‖∇D‖₂ − 1)²`, averaged over the batch only.  This
definition follows the spec sentence and is compared against `gp_code`. -/
def gp_spec (sq : ℚ → ℚ) (gs : List Image) : ℚ :=
  mean (gs.map fun g => (sq (imgSqSum g) - 1) ^ 2)

/-- Per-sample linear interpolation, singan.py line 383:
`interpolates = alpha * real_data + (1. - alpha) * fake_data` with a
per-sample coefficient `alpha` (broadcast over the image). -/
def imgLerp (a : ℚ) (r f : Image) : Image :=
  List.zipWith (List.zipWith (List.zipWith fun x y => a * x + (1 - a) * y)) r f

/-- Interpolated batch: sample `b` uses coefficient `alpha[b]`
(`alpha = torch.rand(batch_size, 1, 1, 1)`, passed in explicitly here). -/
def interp_batch : List ℚ → List Image → List Image → List Image
  | a :: as, r :: rs, f :: fs => imgLerp a r f :: interp_batch as rs fs
  | _, _, _ => []

/-- `SinGAN.disc_loss` (singan.py lines 348-400).  The losses dict is
`loss_disc_fake = disc_pred_fake.mean()`, `loss_disc_real =
-disc_pred_real.mean()`, and `loss_gp = 0.1 * gradients_penalty`, where the
penalty is evaluated on `autograd.grad` of the discriminator at the
interpolated input.  `gradD` is the (external) map from the interpolated
batch to that gradient batch; `alpha` is the drawn interpolation vector. -/
def disc_loss (sq : ℚ → ℚ) (gradD : List Image → List Image)
    (fpred rpred alpha : List ℚ) (realB fakeB : List Image) : ℚ :=
  parse_losses
    [("loss_disc_fake", mean fpred),
     ("loss_disc_real", -mean rpred),
     ("loss_gp", (1 / 10) * gp_code sq (gradD (interp_batch alpha realB fakeB)))]

/-- A concrete exact square root used only at perfect squares, for closed
counterexample/witness statements. -/
def sqDemo (x : ℚ) : ℚ :=
  if x = 9 then 3 else if x = 16 then 4 else if x = 25 then 5 else 0

/-! Stage transition controller (`SinGAN.train_step`, lines 564-594).
`w = iters_per_scale * discriminator_steps` is the window;
`self.curr_stage` starts at `-1` (line 102). -/

/-- The stage update of one `train_step` call at flat iteration `i`
(line 567-568): `if curr_iter % (iters_per_scale * discriminator_steps) == 0:
self.curr_stage += 1`. -/
def stage_step (w i : ℕ) (s : ℤ) : ℤ := if i % w = 0 then s + 1 else s

/-- The stage held after the training ticks `0, 1, ..., i` have all run,
starting from the initial `curr_stage = -1`. -/
def stage_after (w : ℕ) : ℕ → ℤ
  | 0 => stage_step w 0 (-1)
  | i + 1 => stage_step w (i + 1) (stage_after w i)

/-- The accumulation counts (`_accumulative_counts`) of the per-stage
generator and discriminator optimizer wrappers. -/
structure OptimPair where
  genAccum : ℕ
  discAccum : ℕ
deriving DecidableEq

/-- Errors a `train_step` call can raise while selecting the stage:
the `assert ... == 1` on the accumulation counts (lines 580-581), or a
missing per-stage key in the optimizer wrapper dict
(`optim_wrapper[f'generator_{stage}']`, lines 576-577 and 592-594). -/
inductive TrainError where
  | configAssert (msg : String)
  | keyError (stage : ℤ)
deriving DecidableEq

/-- The exact assertion message of singan.py lines 578-579. -/
def singan_accum_warning : String :=
  "SinGAN do set batch size as 1 during training and do not support gradient accumulation."

/-- The stage-transition and optimizer-selection portion of
`SinGAN.train_step` (lines 564-594): on a window boundary the stage is
incremented, the per-stage optimizers are looked up and their accumulation
counts asserted to be 1; off the boundary only the current stage's
optimizers are looked up.  `optims` is the external `OptimWrapperDict`
viewed as a partial map from stage index to the pair of wrappers.
`self.num_scales` is NOT consulted anywhere in this code path. -/
def train_step_transition (w i : ℕ) (stage : ℤ) (optims : ℤ → Option OptimPair) :
    Except TrainError ℤ :=
  if i % w = 0 then
    match optims (stage + 1) with
    | none => .error (.keyError (stage + 1))
    | some p =>
      if p.genAccum ≠ 1 then .error (.configAssert singan_accum_warning)
      else if p.discAccum ≠ 1 then .error (.configAssert singan_accum_warning)
      else .ok (stage + 1)
  else
    match optims stage with
    | none => .error (.keyError stage)
    | some _ => .ok stage

/-! Alternating update scheduler (`SinGAN.train_gan`, lines 487-541). -/

/-- The observable actions of one `train_gan` call, in order. -/
inductive Action where
  | discStep
  | freezeDisc
  | genStep
  | unfreezeDisc
deriving DecidableEq

/-- The action trace of `SinGAN.train_gan` at flat iteration `i` with
`discriminator_steps = ds`, `disc_accu_iters = da`, `generator_steps = gs`,
`gen_accu_iters = ga`: one discriminator round always runs first (line
493-495); iff `(curr_iter + 1) % (discriminator_steps * disc_accu_iters)
== 0` (line 502) the discriminator is frozen (`set_requires_grad(.., False)`,
line 503), `generator_steps * gen_accu_iters` generator rounds run (line
511), and the discriminator is unfrozen (line 520). -/
def train_gan_actions (i ds da gs ga : ℕ) : List Action :=
  [Action.discStep] ++
    (if (i + 1) % (ds * da) = 0 then
      [Action.freezeDisc] ++ List.replicate (gs * ga) Action.genStep ++
        [Action.unfreezeDisc]
    else [])

/-- The discriminator `requires_grad` flag after executing one action. -/
def step_flag (b : Bool) : Action → Bool
  | .discStep => b
  | .freezeDisc => false
  | .genStep => b
  | .unfreezeDisc => true

/-- Pair each action of a trace with the discriminator `requires_grad`
flag in effect once the action has executed (a freeze takes effect for the
actions that follow it). -/
def annotate_flags (b : Bool) : List Action → List (Action × Bool)
  | [] => []
  | a :: as => (a, step_flag b a) :: annotate_flags (step_flag b a) as

/-- The discriminator `requires_grad` flag after a whole trace has run. -/
def final_flag (b : Bool) : List Action → Bool
  | [] => b
  | a :: as => final_flag (step_flag b a) as

/-! EMA shadow synchronizer (`SinGAN.train_gan`, lines 522-538).  The
averaged-model operations themselves live in
`mmagic/models/base_models/average_model.py`, which is not part of the
sources here, so they are modelled from the spec. -/

/-- Parameters and buffers of a module, flattened to value lists. -/
structure ModuleState where
  params : List ℚ
  buffers : List ℚ
deriving DecidableEq

/-- Modelled from the spec: the exponential-decay blend performed by the
missing `ExponentialMovingAverage.update_parameters` —
`shadow = decay * shadow_prev + (1 - decay) * generator_current`
elementwise. -/
def ema_blend (decay : ℚ) : List ℚ → List ℚ → List ℚ
  | a :: as, b :: bs => (decay * a + (1 - decay) * b) :: ema_blend decay as bs
  | _, _ => []

/-- Modelled from the spec: the missing `update_parameters` blends the
parameters, and blends the buffers too only when buffer updating is
enabled. -/
def ema_update_parameters (decay : ℚ) (updBuf : Bool) (shadow gen : ModuleState) :
    ModuleState :=
  { params := ema_blend decay shadow.params gen.params,
    buffers := if updBuf then ema_blend decay shadow.buffers gen.buffers
               else shadow.buffers }

/-- Modelled from the spec: the missing `sync_parameters` performs a full
plain copy of the generator's parameters and buffers into the shadow. -/
def ema_sync_parameters (gen : ModuleState) : ModuleState := gen

/-- Modelled from the spec: the missing `sync_buffers` plain-copies the
buffers only. -/
def ema_sync_buffers (shadow gen : ModuleState) : ModuleState :=
  { shadow with buffers := gen.buffers }

/-- The EMA portion of `SinGAN.train_gan` (lines 522-538), executed only
inside the generator-update branch (`(curr_iter + 1) % (discriminator_steps
* disc_accu_iters) == 0`): if EMA is enabled and `curr_iter + 1 >=
ema_start * discriminator_steps * disc_accu_iters`, call
`update_parameters` and, when buffer updating is disabled, additionally
`sync_buffers`; before the threshold call `sync_parameters`; on other ticks
(or without EMA) the shadow is untouched. -/
def train_gan_ema_step (withEma : Bool) (emaStart ds da i : ℕ) (decay : ℚ)
    (updBuf : Bool) (gen shadow : ModuleState) : ModuleState :=
  if (i + 1) % (ds * da) = 0 then
    if withEma = true ∧ emaStart * ds * da ≤ i + 1 then
      let s1 := ema_update_parameters decay updBuf shadow gen
      if updBuf then s1 else ema_sync_buffers s1 gen
    else if withEma = true then ema_sync_parameters gen
    else shadow
  else shadow

/-! Noise-weight calibrator (`SinGAN.__init__` line 103 and
`SinGAN.train_step` lines 613-630). -/

/-- `self.noise_weights = [1]` (line 103). -/
def init_noise_weights : List ℚ := [1]

/-- The noise-weight update of one `train_step` call (lines 613-630):
iff `(curr_iter + 1) % (iters_per_scale * discriminator_steps) == 0` and
`curr_stage < len(reals) - 1`, append
`noise_weight_init * sqrt(F.mse_loss(g_recon, reals[curr_stage + 1]))`.
`reconUp` is the reconstruction generated in `recon` mode under
`torch.no_grad()` and resampled by `F.interpolate` to the next real image's
spatial size (generator and resampling are external, so the resampled
tensor is passed in, flattened); `reals` are the flattened real images. -/
def noise_weight_step (sq : ℚ → ℚ) (nwInit : ℚ) (ips ds i : ℕ) (stage : ℤ)
    (reals : List (List ℚ)) (reconUp : List ℚ) (ws : List ℚ) : List ℚ :=
  if (i + 1) % (ips * ds) = 0 ∧ stage < (reals.length : ℤ) - 1 then
    ws ++ [nwInit * sq (mse reconUp (reals.getD (stage + 1).toNat []))]
  else ws

/-! Fixed-noise pyramid (`SinGAN.construct_fixed_noises`, lines 162-171). -/

/-- A tensor as a shape together with flat data. -/
structure Tensor where
  shape : List ℕ
  data : List ℚ
deriving DecidableEq

/-- `real.shape[-2:]`: the last two (spatial) dimensions. -/
def spatialShape (t : Tensor) : List ℕ := t.shape.drop (t.shape.length - 2)

/-- `torch.zeros_like(real)`: same shape, all entries zero. -/
def zeros_like (t : Tensor) : Tensor := ⟨t.shape, t.data.map fun _ => 0⟩

/-- `SinGAN.construct_fixed_noises` (lines 162-171): for index 0 append
`torch.randn(1, 1, h, w)` with `h, w = reals[0].shape[-2:]` (the drawn
random values are `rand`); for every later index append
`torch.zeros_like(real)`. -/
def construct_fixed_noises (rand : List ℚ) (reals : List Tensor) : List Tensor :=
  reals.enum.map fun p =>
    if p.1 = 0 then ⟨[1, 1] ++ spatialShape p.2, rand⟩
    else zeros_like p.2

/-! Inference-time snapshot loading (`SinGAN.load_test_pkl` lines 111-121,
`SinGAN.test_step` lines 640-654, and the `forward` batch-size assertion
lines 194-197). -/

/-- The fields of the snapshot pickle: `fixed_noises`, `noise_weights`,
`curr_stage`. -/
structure PklContent where
  fixedNoises : List Tensor
  noiseWeights : List ℚ
  currStage : ℤ

/-- The SinGAN state that `load_test_pkl` / `test_step` touch. -/
structure TestState where
  fixedNoises : List Tensor
  noiseWeights : List ℚ
  currStage : ℤ
  loadedTestPkl : Bool
  pklData : Option String
deriving DecidableEq

/-- `SinGAN.load_test_pkl` (lines 111-121): only `if self.pkl_data is not
None` does it read the pickle (`readPkl` is the external file read) and set
the three fields and `loaded_test_pkl = True`; with `pkl_data = None` it
does nothing at all. -/
def load_test_pkl (readPkl : String → PklContent) (s : TestState) : TestState :=
  match s.pklData with
  | none => s
  | some path =>
    let d := readPkl path
    { s with fixedNoises := d.fixedNoises, noiseWeights := d.noiseWeights,
             currStage := d.currStage, loadedTestPkl := true }

/-- `SinGAN.test_step` (lines 640-654): `if not self.loaded_test_pkl:
self.load_test_pkl()`, then `super().test_step(data)`, whose `forward`
asserts only `num_batches == 1` (lines 194-197) — no check involves
`curr_stage` or the fixed noises.  Returns the new state and whether a
snapshot load was attempted this call. -/
def test_step (readPkl : String → PklContent) (numBatches : ℕ) (s : TestState) :
    Except String (TestState × Bool) :=
  let s1 := if s.loadedTestPkl = false then load_test_pkl readPkl s else s
  if numBatches = 1 then .ok (s1, s.loadedTestPkl = false)
  else .error "SinGAN only support num_batches as 1"

/-- The state map of one successful `test_step` call (used to iterate
calls). -/
def test_step_state (readPkl : String → PklContent) (s : TestState) : TestState :=
  if s.loadedTestPkl = false then load_test_pkl readPkl s else s

/-! Helper lemmas shared by the claim theorems. -/

theorem parse_losses_pair (k₁ k₂ : String) (x y : ℚ)
    (h₁ : keyHasLoss k₁ = true) (h₂ : keyHasLoss k₂ = true) :
    parse_losses [(k₁, x), (k₂, y)] = x + y := by
  simp [parse_losses, List.filter, h₁, h₂]

theorem parse_losses_triple (k₁ k₂ k₃ : String) (x y z : ℚ)
    (h₁ : keyHasLoss k₁ = true) (h₂ : keyHasLoss k₂ = true)
    (h₃ : keyHasLoss k₃ = true) :
    parse_losses [(k₁, x), (k₂, y), (k₃, z)] = x + y + z := by
  simp [parse_losses, List.filter, h₁, h₂, h₃]
  ring

/-- Claim C4: for every discriminator score vector `d` on fresh fake images
and every reconstruction `r` against the current-stage real target `t`
(nonempty, shape-matched tensors), the generator loss equals
`-mean(d) + 10 * mean((r - t)^2)` exactly. -/
theorem gen_loss_decomposition (d r t : List ℚ) (hd : d ≠ []) (hr : r ≠ [])
    (hlen : r.length = t.length) :
    gen_loss d r t = -mean d + 10 * mean ((r.zip t).map fun p => (p.1 - p.2) ^ 2) := by
  have h₁ : keyHasLoss "loss_gen" = true := by decide
  have h₂ : keyHasLoss "loss_mse" = true := by decide
  rw [gen_loss, parse_losses_pair _ _ _ _ h₁ h₂, mse]

/-- Witness for C4 at `d = [2]`, `r = [3]`, `t = [1]`:
`gen_loss = -2 + 10 * 4 = 38`. -/
theorem gen_loss_decomposition_check :
    ([2] : List ℚ) ≠ [] ∧ ([3] : List ℚ) ≠ [] ∧
    gen_loss [2] [3] [1] =
      -mean [2] + 10 * mean ((([3] : List ℚ).zip [1]).map fun p => (p.1 - p.2) ^ 2) ∧
    gen_loss [2] [3] [1] = 38 := by
  refine ⟨by simp, by simp,
    gen_loss_decomposition [2] [3] [1] (by simp) (by simp) rfl, ?_⟩
  rw [gen_loss, parse_losses_pair _ _ _ _ (by decide) (by decide)]
  norm_num [mse, mean]

/-- Claim C1 (amended): a stage transition fires iff `i % window == 0`, the
stage advances by at most 1 per tick and never decreases, and starting from
`curr_stage = -1` the stage after tick `i` equals `floor(i / window)` with
NO clamping; the clamped value `min(floor(i / window), num_scales - 1)`
coincides with it only on the intended training horizon
`i < num_scales * window`. -/
theorem stage_progression (w n : ℕ) (hw : 0 < w) (i : ℕ) :
    (∀ s : ℤ, stage_step w i s = s + 1 ↔ i % w = 0) ∧
    (∀ s : ℤ, s ≤ stage_step w i s ∧ stage_step w i s ≤ s + 1) ∧
    stage_after w i = ((i / w : ℕ) : ℤ) ∧
    (i < n * w → stage_after w i = min ((i / w : ℕ) : ℤ) ((n : ℤ) - 1)) := by
  have hmain : ∀ j : ℕ, stage_after w j = ((j / w : ℕ) : ℤ) := by
    intro j
    induction j with
    | zero => simp [stage_after, stage_step, Nat.zero_mod, Nat.zero_div]
    | succ m ih =>
      rw [stage_after, stage_step, ih, Nat.succ_div]
      by_cases h : (m + 1) % w = 0
      · have hdvd : w ∣ m + 1 := Nat.dvd_iff_mod_eq_zero.mpr h
        simp [h, hdvd]
      · have hdvd : ¬ w ∣ m + 1 := fun hc => h (Nat.dvd_iff_mod_eq_zero.mp hc)
        simp [h, hdvd]
  refine ⟨?_, ?_, hmain i, ?_⟩
  · intro s
    by_cases h : i % w = 0 <;> simp [stage_step, h]
  · intro s
    by_cases h : i % w = 0 <;> simp [stage_step, h]
  · intro hi
    rw [hmain i]
    have hdiv : i / w < n := (Nat.div_lt_iff_lt_mul hw).mpr (by omega)
    have hcast : ((i / w : ℕ) : ℤ) < (n : ℤ) := by exact_mod_cast hdiv
    omega

/-- Claim C1 counterexample: with `iters_per_scale = 1`,
`discriminator_steps = 1` (window 1) and a real pyramid of length
`num_scales = 1`, the stage after tick `i = 1` is `1`, not the clipped
value `max(-1, min(floor(1/1), 1 - 1)) = 0`: the code never clamps the
stage to `[-1, num_scales - 1]`. -/
theorem stage_clip_cex :
    stage_after 1 1 = 1 ∧
    stage_after 1 1 ≠ max (-1) (min ((1 / 1 : ℕ) : ℤ) ((1 : ℤ) - 1)) := by
  constructor <;> decide

/-- Witness for the amended C1 at `window = 2`, `num_scales = 3`, tick
`i = 5` (the last in-horizon tick): stage `5 / 2 = 2 = min(2, 3 - 1)`. -/
theorem stage_progression_check :
    0 < 2 ∧ (5 : ℕ) < 3 * 2 ∧
    stage_after 2 5 = ((5 / 2 : ℕ) : ℤ) ∧
    stage_after 2 5 = min ((5 / 2 : ℕ) : ℤ) ((3 : ℤ) - 1) :=
  ⟨by decide, by decide, (stage_progression 2 3 (by decide) 5).2.2.1,
    (stage_progression 2 3 (by decide) 5).2.2.2 (by decide)⟩

theorem annotate_flags_replicate_gen (k : ℕ) (rest : List Action) :
    annotate_flags false (List.replicate k Action.genStep ++ rest) =
      List.replicate k (Action.genStep, false) ++ annotate_flags false rest := by
  induction k with
  | zero => simp
  | succ m ih => simp [List.replicate_succ, annotate_flags, step_flag, ih]

theorem final_flag_replicate_gen (k : ℕ) (rest : List Action) :
    final_flag false (List.replicate k Action.genStep ++ rest) =
      final_flag false rest := by
  induction k with
  | zero => simp
  | succ m ih => simpa [List.replicate_succ, final_flag, step_flag] using ih

/-- Claim C2: on every tick exactly one discriminator update round runs
first; iff `(i+1) % (discriminator_steps * disc_accum_count) == 0` the
discriminator is frozen, exactly `generator_steps * gen_accum_count`
generator rounds run in immediate sequence (each while the discriminator's
`requires_grad` is off), and the discriminator is unfrozen afterwards; on
other ticks no generator round runs. -/
theorem train_gan_alternation (i ds da gs ga : ℕ) :
    (train_gan_actions i ds da gs ga).head? = some Action.discStep ∧
    (train_gan_actions i ds da gs ga).count Action.discStep = 1 ∧
    (train_gan_actions i ds da gs ga).count Action.genStep =
      (if (i + 1) % (ds * da) = 0 then gs * ga else 0) ∧
    ((i + 1) % (ds * da) = 0 →
      train_gan_actions i ds da gs ga =
        [Action.discStep, Action.freezeDisc] ++
          List.replicate (gs * ga) Action.genStep ++ [Action.unfreezeDisc]) ∧
    ((i + 1) % (ds * da) ≠ 0 →
      train_gan_actions i ds da gs ga = [Action.discStep]) ∧
    (∀ p ∈ annotate_flags true (train_gan_actions i ds da gs ga),
      p.1 = Action.genStep → p.2 = false) ∧
    final_flag true (train_gan_actions i ds da gs ga) = true := by
  by_cases h : (i + 1) % (ds * da) = 0
  · have htr : train_gan_actions i ds da gs ga =
        Action.discStep :: Action.freezeDisc ::
          (List.replicate (gs * ga) Action.genStep ++ [Action.unfreezeDisc]) := by
      simp [train_gan_actions, h]
    refine ⟨by rw [htr]; rfl, ?_, ?_, fun _ => by rw [htr]; simp, fun hc => absurd h hc, ?_, ?_⟩
    · rw [htr]
      simp [List.count_cons, List.count_append, List.count_replicate]
    · rw [htr, if_pos h]
      simp [List.count_cons, List.count_append, List.count_replicate]
    · intro p hp hgen
      rw [htr] at hp
      simp only [annotate_flags, step_flag] at hp
      rw [annotate_flags_replicate_gen] at hp
      simp only [annotate_flags, step_flag, List.mem_cons, List.mem_append,
        List.mem_replicate, List.mem_singleton, List.not_mem_nil, or_false] at hp
      rcases hp with rfl | rfl | ⟨-, rfl⟩ | rfl
      · exact absurd hgen (by decide)
      · rfl
      · rfl
      · exact absurd hgen (by decide)
    · rw [htr]
      simp only [final_flag, step_flag]
      rw [final_flag_replicate_gen]
      rfl
  · have htr : train_gan_actions i ds da gs ga = [Action.discStep] := by
      simp [train_gan_actions, h]
    refine ⟨by rw [htr]; rfl, ?_, ?_, fun hc => absurd hc h, fun _ => htr, ?_, ?_⟩
    · rw [htr]; rfl
    · rw [htr, if_neg h]; rfl
    · intro p hp hgen
      rw [htr] at hp
      simp only [annotate_flags, step_flag, List.mem_singleton] at hp
      rw [hp] at hgen
      exact absurd hgen (by decide)
    · rw [htr]; rfl

/-- Witness for C2 at `i = 0, ds = 1, da = 1, gs = 2, ga = 1` (a
generator-update tick) and at `i = 0, ds = 2, da = 1` (a tick without
generator update). -/
theorem train_gan_alternation_check :
    (0 + 1) % (1 * 1) = 0 ∧
    train_gan_actions 0 1 1 2 1 =
      [Action.discStep, Action.freezeDisc] ++
        List.replicate (2 * 1) Action.genStep ++ [Action.unfreezeDisc] ∧
    (0 + 1) % (2 * 1) ≠ 0 ∧
    train_gan_actions 0 2 1 2 1 = [Action.discStep] :=
  ⟨by decide, (train_gan_alternation 0 1 1 2 1).2.2.2.1 (by decide),
    by decide, (train_gan_alternation 0 2 1 2 1).2.2.2.2.1 (by decide)⟩

/-- Claim C3: the noise-weight sequence starts as `[1.0]`; at tick `i` one
element is appended iff `(i+1) % (iters_per_scale * discriminator_steps)
== 0` and the current stage is not the final scale, and the appended value
is `noise_weight_init * sqrt(mean((recon_upsampled - real_next)^2))`,
which is nonnegative (given that the numeric square root of the
nonnegative MSE is nonnegative and the configured `noise_weight_init`
is nonnegative). -/
theorem noise_weight_calibration (sq : ℚ → ℚ) (nwInit : ℚ) (ips ds i : ℕ)
    (stage : ℤ) (reals : List (List ℚ)) (reconUp ws : List ℚ)
    (hsq : 0 ≤ sq (mse reconUp (reals.getD (stage + 1).toNat [])))
    (hnw : 0 ≤ nwInit) :
    init_noise_weights = [1] ∧
    ((i + 1) % (ips * ds) = 0 ∧ stage < (reals.length : ℤ) - 1 →
      noise_weight_step sq nwInit ips ds i stage reals reconUp ws =
        ws ++ [nwInit * sq (mean ((reconUp.zip
          (reals.getD (stage + 1).toNat [])).map fun p => (p.1 - p.2) ^ 2))] ∧
      (noise_weight_step sq nwInit ips ds i stage reals reconUp ws).length =
        ws.length + 1 ∧
      0 ≤ nwInit * sq (mse reconUp (reals.getD (stage + 1).toNat []))) ∧
    (¬ ((i + 1) % (ips * ds) = 0 ∧ stage < (reals.length : ℤ) - 1) →
      noise_weight_step sq nwInit ips ds i stage reals reconUp ws = ws) := by
  refine ⟨rfl, fun hgate => ⟨?_, ?_, mul_nonneg hnw hsq⟩, fun hgate => ?_⟩
  · rw [noise_weight_step, if_pos hgate, mse]
  · rw [noise_weight_step, if_pos hgate]
    simp
  · rw [noise_weight_step, if_neg hgate]

/-- Witness for C3: `iters_per_scale = 1, discriminator_steps = 1`, tick
`i = 0`, stage 0 of a 2-scale pyramid `[[0], [2]]`, reconstruction `[5]`,
`noise_weight_init = 1/10`: the gate fires and appends
`(1/10) * sqrt(9) = 3/10`. -/
theorem noise_weight_calibration_check :
    0 ≤ sqDemo (mse [5] (([[0], [2]] : List (List ℚ)).getD ((0 : ℤ) + 1).toNat [])) ∧
    (0 : ℚ) ≤ 1 / 10 ∧
    ((0 + 1) % (1 * 1) = 0 ∧ (0 : ℤ) < (([[0], [2]] : List (List ℚ)).length : ℤ) - 1) ∧
    noise_weight_step sqDemo (1 / 10) 1 1 0 0 [[0], [2]] [5] [1] =
      [1] ++ [(1 / 10) * sqDemo (mean ((([5] : List ℚ).zip
        (([[0], [2]] : List (List ℚ)).getD ((0 : ℤ) + 1).toNat [])).map
          fun p => (p.1 - p.2) ^ 2))] ∧
    noise_weight_step sqDemo (1 / 10) 1 1 0 0 [[0], [2]] [5] [1] = [1, 3 / 10] := by
  have hsq : 0 ≤ sqDemo (mse [5] (([[0], [2]] : List (List ℚ)).getD ((0 : ℤ) + 1).toNat [])) := by
    norm_num [mse, mean, sqDemo]
  have hgate : (0 + 1) % (1 * 1) = 0 ∧ (0 : ℤ) < (([[0], [2]] : List (List ℚ)).length : ℤ) - 1 := by
    constructor <;> norm_num
  refine ⟨hsq, by norm_num, hgate,
    ((noise_weight_calibration sqDemo (1 / 10) 1 1 0 0 [[0], [2]] [5] [1] hsq
      (by norm_num)).2.1 hgate).1, ?_⟩
  norm_num [noise_weight_step, mse, mean, sqDemo]

theorem interp_batch_getD (alpha : List ℚ) (realB fakeB : List Image) (b : ℕ)
    (h₁ : b < alpha.length) (h₂ : b < realB.length) (h₃ : b < fakeB.length) :
    (interp_batch alpha realB fakeB).getD b [] =
      imgLerp (alpha.getD b 0) (realB.getD b []) (fakeB.getD b []) := by
  induction alpha generalizing realB fakeB b with
  | nil => simp at h₁
  | cons a as ih =>
    cases realB with
    | nil => simp at h₂
    | cons r rs =>
      cases fakeB with
      | nil => simp at h₃
      | cons f fs =>
        cases b with
        | zero => simp [interp_batch]
        | succ m =>
          simp only [interp_batch, List.getD_cons_succ]
          exact ih rs fs m (by simpa using h₁) (by simpa using h₂) (by simpa using h₃)

/-- Claim C5 counterexample: under an exact square root (witnessed on the
perfect squares 9, 16, 25 that occur), the discriminator loss the code
computes at batch `[[[3],[4]]]`-gradient (one channel, two pixels) is
`13/20`, while the value the claim's formula gives — penalty
`(‖∇D‖₂ − 1)²` averaged over the batch only — is `8/5`: the code's penalty
is the per-pixel channel-norm deviation averaged over batch AND spatial
positions, not the per-sample full-gradient norm. -/
theorem disc_loss_penalty_cex :
    (sqDemo 9 * sqDemo 9 = 9 ∧ 0 ≤ sqDemo 9) ∧
    (sqDemo 16 * sqDemo 16 = 16 ∧ 0 ≤ sqDemo 16) ∧
    (sqDemo 25 * sqDemo 25 = 25 ∧ 0 ≤ sqDemo 25) ∧
    disc_loss sqDemo (fun _ => [[[[3], [4]]]]) [0] [0] [0]
      [[[[0], [0]]]] [[[[0], [0]]]] = 13 / 20 ∧
    mean [0] - mean [0] + (1 / 10) * gp_spec sqDemo
      ((fun _ => [[[[3], [4]]]]) (interp_batch [0] [[[[0], [0]]]] [[[[0], [0]]]])) = 8 / 5 ∧
    (13 / 20 : ℚ) ≠ 8 / 5 := by
  refine ⟨⟨by norm_num [sqDemo], by norm_num [sqDemo]⟩,
    ⟨by norm_num [sqDemo], by norm_num [sqDemo]⟩,
    ⟨by norm_num [sqDemo], by norm_num [sqDemo]⟩, ?_, ?_, by norm_num⟩
  · rw [disc_loss, parse_losses_triple _ _ _ _ _ _ (by decide) (by decide) (by decide)]
    norm_num [gp_code, pixel_penalties, channelSqSum, matSq, mean, sqDemo]
  · norm_num [gp_spec, imgSqSum, mean, sqDemo]

/-- Claim C5 (amended): the discriminator loss equals
`mean(fake) - mean(real) + 0.1 * gp`, where `gp` is the gradient of D at the
per-sample linear interpolation `alpha[b]*real[b] + (1-alpha[b])*fake[b]`
(coefficient drawn per sample from U[0,1], modelled by quantifying over all
coefficient vectors with entries in [0,1]) — but the penalty is the
per-pixel CHANNEL 2-norm deviation `(‖∇D‖₂(pixel) − 1)²` averaged over
batch and spatial positions (`norm(2, dim=1)` then a global mean), not the
per-sample full-gradient norm averaged over the batch. -/
theorem disc_loss_decomposition (sq : ℚ → ℚ) (gradD : List Image → List Image)
    (fpred rpred alpha : List ℚ) (realB fakeB : List Image)
    (hf : fpred ≠ []) (hr : rpred ≠ [])
    (ha : ∀ a ∈ alpha, 0 ≤ a ∧ a ≤ 1) :
    disc_loss sq gradD fpred rpred alpha realB fakeB =
      mean fpred - mean rpred +
        (1 / 10) * gp_code sq (gradD (interp_batch alpha realB fakeB)) ∧
    (∀ b, b < alpha.length → b < realB.length → b < fakeB.length →
      (interp_batch alpha realB fakeB).getD b [] =
        imgLerp (alpha.getD b 0) (realB.getD b []) (fakeB.getD b [])) := by
  constructor
  · rw [disc_loss, parse_losses_triple _ _ _ _ _ _ (by decide) (by decide) (by decide)]
    ring
  · intro b h₁ h₂ h₃
    exact interp_batch_getD alpha realB fakeB b h₁ h₂ h₃

/-- Witness for the amended C5 with identity gradient map, batch 1,
`alpha = [1/2]`. -/
theorem disc_loss_decomposition_check :
    ([1] : List ℚ) ≠ [] ∧ ([2] : List ℚ) ≠ [] ∧
    (∀ a ∈ ([1 / 2] : List ℚ), 0 ≤ a ∧ a ≤ 1) ∧
    disc_loss sqDemo (fun x => x) [1] [2] [1 / 2] [[[[0], [0]]]] [[[[3], [4]]]] =
      mean [1] - mean [2] +
        (1 / 10) * gp_code sqDemo ((fun x => x)
          (interp_batch [1 / 2] [[[[0], [0]]]] [[[[3], [4]]]])) := by
  refine ⟨by simp, by simp, by norm_num, ?_⟩
  exact (disc_loss_decomposition sqDemo (fun x => x) [1] [2] [1 / 2]
    [[[[0], [0]]]] [[[[3], [4]]]] (by simp) (by simp) (by norm_num)).1

theorem ema_blend_getD (decay : ℚ) (a b : List ℚ) (j : ℕ)
    (ha : j < a.length) (hb : j < b.length) :
    (ema_blend decay a b).getD j 0 =
      decay * a.getD j 0 + (1 - decay) * b.getD j 0 := by
  induction a generalizing b j with
  | nil => simp at ha
  | cons x xs ih =>
    cases b with
    | nil => simp at hb
    | cons y ys =>
      cases j with
      | zero => simp [ema_blend]
      | succ m =>
        simp only [ema_blend, List.getD_cons_succ]
        exact ih ys m (by simpa using ha) (by simpa using hb)

/-- Claim C6: on a tick with a generator update and EMA enabled, past the
threshold `ema_start * discriminator_steps * disc_accum_count` the shadow
parameters become `decay*shadow + (1-decay)*generator` elementwise and,
when buffer updating is disabled, the buffers are plain-copied from the
generator; before the threshold the shadow is set equal to the generator by
full copy; on ticks without a generator update (or without EMA) the shadow
is untouched. -/
theorem ema_shadow_sync (withEma : Bool) (emaStart ds da i : ℕ) (decay : ℚ)
    (updBuf : Bool) (gen shadow : ModuleState) :
    ((i + 1) % (ds * da) ≠ 0 →
      train_gan_ema_step withEma emaStart ds da i decay updBuf gen shadow = shadow) ∧
    (withEma = false →
      train_gan_ema_step withEma emaStart ds da i decay updBuf gen shadow = shadow) ∧
    ((i + 1) % (ds * da) = 0 → withEma = true → emaStart * ds * da ≤ i + 1 →
      (train_gan_ema_step withEma emaStart ds da i decay updBuf gen shadow).params =
        ema_blend decay shadow.params gen.params ∧
      (train_gan_ema_step withEma emaStart ds da i decay updBuf gen shadow).buffers =
        (if updBuf then ema_blend decay shadow.buffers gen.buffers else gen.buffers) ∧
      (∀ j, j < shadow.params.length → j < gen.params.length →
        (train_gan_ema_step withEma emaStart ds da i decay updBuf gen shadow).params.getD j 0 =
          decay * shadow.params.getD j 0 + (1 - decay) * gen.params.getD j 0)) ∧
    ((i + 1) % (ds * da) = 0 → withEma = true → i + 1 < emaStart * ds * da →
      train_gan_ema_step withEma emaStart ds da i decay updBuf gen shadow = gen) := by
  refine ⟨fun htick => by rw [train_gan_ema_step, if_neg htick], fun hema => ?_, ?_, ?_⟩
  · rw [train_gan_ema_step]
    by_cases htick : (i + 1) % (ds * da) = 0
    · rw [if_pos htick, if_neg (by simp [hema]), if_neg (by simp [hema])]
    · rw [if_neg htick]
  · intro htick hema hth
    have hcond : withEma = true ∧ emaStart * ds * da ≤ i + 1 := ⟨hema, hth⟩
    rw [train_gan_ema_step, if_pos htick, if_pos hcond]
    refine ⟨?_, ?_, ?_⟩
    · cases updBuf <;>
        simp [ema_update_parameters, ema_sync_buffers]
    · cases updBuf <;>
        simp [ema_update_parameters, ema_sync_buffers]
    · intro j hj hg
      have hparams : (if updBuf = true then ema_update_parameters decay updBuf shadow gen
          else ema_sync_buffers (ema_update_parameters decay updBuf shadow gen) gen).params =
          ema_blend decay shadow.params gen.params := by
        cases updBuf <;> simp [ema_update_parameters, ema_sync_buffers]
      rw [hparams]
      exact ema_blend_getD decay shadow.params gen.params j hj hg
  · intro htick hema hth
    rw [train_gan_ema_step, if_pos htick,
      if_neg (by intro hc; omega), if_pos hema]
    rfl

/-- Witness for C6 at a generator-update tick past the threshold
(`ds = da = 1`, `i = 0`, `ema_start = 1`), `decay = 1/2`, buffer updating
disabled, generator `params [2], buffers [4]`, shadow `params [4],
buffers [8]`: the result has blended params `[3]` and plain-copied buffers
`[4]`; and at `ema_start = 5` (before the threshold) the result is the full
copy of the generator. -/
theorem ema_shadow_sync_check :
    (0 + 1) % (1 * 1) = 0 ∧ 1 * 1 * 1 ≤ 0 + 1 ∧ 0 + 1 < 5 * 1 * 1 ∧
    (train_gan_ema_step true 1 1 1 0 (1 / 2) false ⟨[2], [4]⟩ ⟨[4], [8]⟩).params =
      ema_blend (1 / 2) [4] [2] ∧
    (train_gan_ema_step true 1 1 1 0 (1 / 2) false ⟨[2], [4]⟩ ⟨[4], [8]⟩).buffers = [4] ∧
    train_gan_ema_step true 1 1 1 0 (1 / 2) false ⟨[2], [4]⟩ ⟨[4], [8]⟩ =
      ⟨[3], [4]⟩ ∧
    train_gan_ema_step true 5 1 1 0 (1 / 2) false ⟨[2], [4]⟩ ⟨[4], [8]⟩ =
      ⟨[2], [4]⟩ := by
  have h := (ema_shadow_sync true 1 1 1 0 (1 / 2) false ⟨[2], [4]⟩ ⟨[4], [8]⟩).2.2.1
    rfl rfl (by norm_num)
  have h' := (ema_shadow_sync true 5 1 1 0 (1 / 2) false ⟨[2], [4]⟩ ⟨[4], [8]⟩).2.2.2
    rfl rfl (by norm_num)
  refine ⟨rfl, by norm_num, by norm_num, h.1, by rw [h.2.1]; simp, ?_, h'⟩
  have hp := h.1
  have hb := h.2.1
  norm_num [train_gan_ema_step, ema_update_parameters, ema_sync_buffers, ema_blend]

theorem enumFrom_map_getD (f : ℕ × Tensor → Tensor) (n k : ℕ) (l : List Tensor)
    (h : k < l.length) (d : Tensor) :
    ((List.enumFrom n l).map f).getD k d = f (n + k, l.getD k d) := by
  induction l generalizing n k with
  | nil => simp at h
  | cons x xs ih =>
    cases k with
    | zero => simp [List.enumFrom]
    | succ m =>
      simp only [List.enumFrom, List.map_cons, List.getD_cons_succ]
      rw [ih (n + 1) m (by simpa using h)]
      have harith : n + 1 + m = n + (m + 1) := by omega
      rw [harith]

/-- Claim C7: the constructed fixed-noise pyramid has one element per
scale; element 0 carries the drawn random values and has shape
`(1, 1, h, w)` with `h, w` the spatial shape of the scale-0 real image;
every element at index `1..n-1` is an all-zero tensor with exactly the
shape of its corresponding real image; and distinct random draws produce
distinct pyramids (the construction is non-deterministic across calls). -/
theorem fixed_noises_spec (rand rand' : List ℚ) (reals : List Tensor)
    (h0 : reals ≠ []) :
    (construct_fixed_noises rand reals).length = reals.length ∧
    ((construct_fixed_noises rand reals).getD 0 ⟨[], []⟩).shape =
      [1, 1] ++ spatialShape (reals.getD 0 ⟨[], []⟩) ∧
    ((construct_fixed_noises rand reals).getD 0 ⟨[], []⟩).data = rand ∧
    (∀ k, 1 ≤ k → k < reals.length →
      (construct_fixed_noises rand reals).getD k ⟨[], []⟩ =
        zeros_like (reals.getD k ⟨[], []⟩) ∧
      (construct_fixed_noises rand reals).getD k ⟨[], []⟩ =
        ⟨(reals.getD k ⟨[], []⟩).shape, (reals.getD k ⟨[], []⟩).data.map fun _ => 0⟩ ∧
      ∀ v ∈ ((construct_fixed_noises rand reals).getD k ⟨[], []⟩).data, v = 0) ∧
    (rand ≠ rand' →
      construct_fixed_noises rand reals ≠ construct_fixed_noises rand' reals) := by
  obtain ⟨r0, rest, rfl⟩ := List.exists_cons_of_ne_nil h0
  have hcons : ∀ rd : List ℚ, construct_fixed_noises rd (r0 :: rest) =
      (⟨[1, 1] ++ spatialShape r0, rd⟩ : Tensor) ::
        (List.enumFrom 1 rest).map (fun p =>
          if p.1 = 0 then ⟨[1, 1] ++ spatialShape p.2, rd⟩ else zeros_like p.2) := by
    intro rd
    simp [construct_fixed_noises, List.enum]
  refine ⟨?_, ?_, ?_, ?_, ?_⟩
  · simp [construct_fixed_noises]
  · rw [hcons rand]; rfl
  · rw [hcons rand]; rfl
  · intro k hk1 hklen
    obtain ⟨m, rfl⟩ : ∃ m, k = m + 1 := ⟨k - 1, by omega⟩
    rw [hcons rand]
    simp only [List.getD_cons_succ]
    rw [enumFrom_map_getD _ 1 m rest (by simpa using hklen) ⟨[], []⟩]
    have hne : ¬ (1 + m = 0) := by omega
    refine ⟨by simp [hne], by simp [hne, zeros_like], ?_⟩
    intro v hv
    simp only [if_neg hne, zeros_like] at hv
    obtain ⟨a, -, hfa⟩ := List.mem_map.mp hv
    exact hfa.symm
  · intro hne heq
    rw [hcons rand, hcons rand'] at heq
    exact hne (congrArg Tensor.data (List.head_eq_of_cons_eq heq))

/-- Witness for C7: a 2-scale pyramid with scale-0 spatial shape `1 × 1`
and a `2 × 2` second scale; draws `[2]` and `[3]` give distinct pyramids
and the evaluated construction. -/
theorem fixed_noises_spec_check :
    ([⟨[1, 1, 1, 1], [5]⟩, ⟨[1, 1, 2, 2], [6, 7, 8, 9]⟩] : List Tensor) ≠ [] ∧
    ([2] : List ℚ) ≠ [3] ∧
    construct_fixed_noises [2] [⟨[1, 1, 1, 1], [5]⟩, ⟨[1, 1, 2, 2], [6, 7, 8, 9]⟩] ≠
      construct_fixed_noises [3] [⟨[1, 1, 1, 1], [5]⟩, ⟨[1, 1, 2, 2], [6, 7, 8, 9]⟩] ∧
    construct_fixed_noises [2] [⟨[1, 1, 1, 1], [5]⟩, ⟨[1, 1, 2, 2], [6, 7, 8, 9]⟩] =
      [⟨[1, 1, 1, 1], [2]⟩, ⟨[1, 1, 2, 2], [0, 0, 0, 0]⟩] := by
  refine ⟨by simp, by simp, ?_, ?_⟩
  · exact (fixed_noises_spec [2] [3]
      [⟨[1, 1, 1, 1], [5]⟩, ⟨[1, 1, 2, 2], [6, 7, 8, 9]⟩] (by simp)).2.2.2.2 (by simp)
  · simp [construct_fixed_noises, List.enum, List.enumFrom, spatialShape, zeros_like]

/-- Claim C8 counterexample: with `window = 1`, a real pyramid of
`num_scales = 1` image and per-stage optimizers (all with accumulation
count 1) available for every stage, the tick `i = 1` transition returns
successfully with stage `1`, which exceeds `num_scales - 1 = 0`: the
training step raises no configuration error and simply continues, because
`train_step` never consults `num_scales`. -/
theorem train_step_no_bound_cex :
    train_step_transition 1 1 0 (fun _ => some ⟨1, 1⟩) = Except.ok 1 ∧
    ¬ ((1 : ℤ) ≤ (1 : ℤ) - 1) := by
  exact ⟨rfl, by decide⟩

/-- Claim C8 (amended): `train_step` performs no `num_scales` bound check:
on a window-boundary tick the stage always increments, and as long as the
external optimizer dict has an entry with accumulation counts 1 for the
new stage, the step succeeds — for any stage value whatsoever.  An error
can arise only from a missing per-stage optimizer key (a KeyError from the
external dict, not a configuration check of this code) or from the
accumulation-count assertion. -/
theorem train_step_transition_unbounded (w i : ℕ) (stage : ℤ)
    (optims : ℤ → Option OptimPair)
    (ht : i % w = 0) (hp : optims (stage + 1) = some ⟨1, 1⟩) :
    train_step_transition w i stage optims = .ok (stage + 1) ∧
    (∀ p, optims (stage + 1) = some p → p.genAccum = 1 → p.discAccum = 1 →
      ∀ bound : ℤ, train_step_transition w i stage optims ≠
        .error (.configAssert singan_accum_warning) ∧
        train_step_transition w i stage optims ≠ .error (.keyError bound)) := by
  have hmain : train_step_transition w i stage optims = .ok (stage + 1) := by
    rw [train_step_transition, if_pos ht]
    rw [hp]
    simp
  refine ⟨hmain, fun p hp' h1 h2 bound => ⟨?_, ?_⟩⟩ <;> rw [hmain] <;> simp

/-- Witness for the amended C8: an overprovisioned optimizer dict lets the
stage reach 5 with no error at tick 5, window 1. -/
theorem train_step_transition_unbounded_check :
    (5 : ℕ) % 1 = 0 ∧
    (fun _ : ℤ => some (⟨1, 1⟩ : OptimPair)) ((4 : ℤ) + 1) = some ⟨1, 1⟩ ∧
    train_step_transition 1 5 4 (fun _ => some ⟨1, 1⟩) = .ok 5 :=
  ⟨rfl, rfl, (train_step_transition_unbounded 1 5 4 (fun _ => some ⟨1, 1⟩) rfl rfl).1⟩

/-- Claim C9 counterexample: at stage 0's first tick with a generator
accumulation count of 2 (expected 1), the assertion fires — but its message
is the fixed string of singan.py lines 578-579, which contains neither the
offending stage index `0` nor the actual value `2`. -/
theorem accum_assert_message_cex :
    train_step_transition 5 0 (-1) (fun _ => some ⟨2, 1⟩) =
      .error (.configAssert singan_accum_warning) ∧
    singan_accum_warning.toList.contains '0' = false ∧
    singan_accum_warning.toList.contains '2' = false := by
  exact ⟨rfl, by decide, by decide⟩

/-- Claim C9 (amended): at each stage's first tick, if the stage's
generator or discriminator optimizer has an accumulation count different
from 1, the assertion raises immediately — but with the fixed message
`"SinGAN do set batch size as 1 during training and do not support
gradient accumulation."`, which names neither the stage index nor the
expected-versus-actual values. -/
theorem accum_assert_raises (w i : ℕ) (stage : ℤ)
    (optims : ℤ → Option OptimPair) (p : OptimPair)
    (ht : i % w = 0) (hp : optims (stage + 1) = some p)
    (hne : p.genAccum ≠ 1 ∨ p.discAccum ≠ 1) :
    train_step_transition w i stage optims =
      .error (.configAssert singan_accum_warning) := by
  rw [train_step_transition, if_pos ht, hp]
  rcases hne with h | h
  · simp [h]
  · by_cases hg : p.genAccum = 1
    · simp [hg, h]
    · simp [hg]

/-- Witness for the amended C9 at stage 0's first tick (`i = 0`,
`w = 5`), discriminator accumulation count 3. -/
theorem accum_assert_raises_check :
    (0 : ℕ) % 5 = 0 ∧
    (fun _ : ℤ => some (⟨1, 3⟩ : OptimPair)) ((-1 : ℤ) + 1) = some ⟨1, 3⟩ ∧
    ((⟨1, 3⟩ : OptimPair).genAccum ≠ 1 ∨ (⟨1, 3⟩ : OptimPair).discAccum ≠ 1) ∧
    train_step_transition 5 0 (-1) (fun _ => some ⟨1, 3⟩) =
      .error (.configAssert singan_accum_warning) :=
  ⟨rfl, rfl, Or.inr (by decide),
    accum_assert_raises 5 0 (-1) (fun _ => some ⟨1, 3⟩) ⟨1, 3⟩ rfl rfl
      (Or.inr (by decide))⟩

/-- Claim C10: with `test_pkl_data = None`, every `test_step` call attempts
the snapshot load; the load changes nothing (in particular
`loaded_test_pkl` stays `False`, so the load is re-attempted on every
subsequent call) and no error is raised: inference proceeds with whatever
in-memory state exists, untrained state included. -/
theorem test_pkl_none_noop (readPkl : String → PklContent) (s : TestState)
    (hp : s.pklData = none) (hl : s.loadedTestPkl = false) :
    load_test_pkl readPkl s = s ∧
    test_step readPkl 1 s = .ok (s, true) ∧
    (∀ n : ℕ, (test_step_state readPkl)^[n] s = s) := by
  have hload : load_test_pkl readPkl s = s := by
    rw [load_test_pkl, hp]
  refine ⟨hload, ?_, ?_⟩
  · simp [test_step, hl, hload]
  · intro n
    exact Function.iterate_fixed (by simp [test_step_state, hl, hload]) n

/-- Witness for C10 at the untrained state: `curr_stage = -1`, empty
fixed-noise pyramid, `noise_weights = [1]`, `pkl_data = None`. -/
theorem test_pkl_none_noop_check :
    (⟨[], [1], -1, false, none⟩ : TestState).pklData = none ∧
    (⟨[], [1], -1, false, none⟩ : TestState).loadedTestPkl = false ∧
    test_step (fun _ => ⟨[], [], 0⟩) 1 ⟨[], [1], -1, false, none⟩ =
      .ok (⟨[], [1], -1, false, none⟩, true) ∧
    (test_step_state (fun _ => ⟨[], [], 0⟩))^[3] ⟨[], [1], -1, false, none⟩ =
      ⟨[], [1], -1, false, none⟩ :=
  ⟨rfl, rfl, (test_pkl_none_noop (fun _ => ⟨[], [], 0⟩) ⟨[], [1], -1, false, none⟩ rfl rfl).2.1,
    (test_pkl_none_noop (fun _ => ⟨[], [], 0⟩) ⟨[], [1], -1, false, none⟩ rfl rfl).2.2 3⟩

end SinGANModel
